import Mathlib

/-!
Verification development for the result-fusion and session-paging cache of
`backend/app/views/functional.py` (search orchestration, fusion, curated-core
boosting, rerank fallback, session cache, community-core update triggers).

Modelling conventions:
* Backend scores (`_score` / `score`, floats in the source) are modelled as
  `Int`: the claims under study only use addition of the constant 100 and
  order comparisons, which the integers model faithfully.
* Python strings are modelled as `String`, with the text operations used by
  the source (`split()`, `in`, `re.sub("#", " ", ·)`, slicing) re-implemented
  structurally over `String.data` so that they evaluate.
* External collaborators (the elastic gateways, the Mongo-backed cache and
  community-core store, TextBlob noun phrases, `standardize_url`,
  `extract_hashtags`, `random.shuffle`) are parameters of the model; fallible
  network calls return `Except Unit` (`.error ()` models a raised exception).
* A raised Python exception propagates as `.error` until the enclosing
  `try`/`except` of the route handler, which converts it into an error
  response.
-/

/-- Python `s[:n]` on strings. -/
def pyTake (s : String) (n : Nat) : String := ⟨s.data.take n⟩

/-- Python `c in s` (membership of a character in a string). -/
def pyContains (s : String) (c : Char) : Bool := s.data.contains c

/-- Python `re.sub("#", " ", s)`: replace every `'#'` by a space. -/
def subHash (s : String) : String :=
  ⟨s.data.map (fun c => if c = '#' then ' ' else c)⟩

/-- Auxiliary for `pyWords`: accumulate the current word (reversed). -/
def splitWsAux : List Char → List Char → List String
  | [], acc => if acc = [] then [] else [⟨acc.reverse⟩]
  | c :: rest, acc =>
    if c.isWhitespace then
      (if acc = [] then [] else [⟨acc.reverse⟩]) ++ splitWsAux rest []
    else
      splitWsAux rest (c :: acc)

/-- Python `s.split()`: split on whitespace runs, producing no empty words. -/
def pyWords (s : String) : List String := splitWsAux s.data []

/-- Python `" ".join(l)`. -/
def joinSpace (l : List String) : String := String.intercalate " " l

/-- Python `list(set(l))`, keeping elements in first-occurrence order
(CPython's set order is unspecified; only the member set matters to any
claim, so first-occurrence order is a faithful realization). -/
def firstDedup (l : List String) : List String :=
  l.foldl (fun acc x => if x ∈ acc then acc else acc ++ [x]) []

/-- A ranked hit / result item: the dict fields relevant to fusion, namely the
canonical (standardized) URL and the backend score. -/
structure Hit where
  url : String
  score : Int
deriving DecidableEq

/-- Ordering used by `sorted(pages, reverse=True, key=lambda x: x["score"])`:
descending by score. -/
def hitGe (a b : Hit) : Prop := b.score ≤ a.score

instance : DecidableRel hitGe := fun a b => inferInstanceAs (Decidable (b.score ≤ a.score))

instance : IsTotal Hit hitGe := ⟨fun a b => le_total b.score a.score⟩

instance : IsTrans Hit hitGe := ⟨fun _ _ _ hab hbc => le_trans hbc hab⟩

/-- `sorted(pages, reverse=True, key=lambda x: x["score"])`: a stable sort,
descending by score (insertion sort is stable, like CPython's sort). -/
def sortByScoreDesc (l : List Hit) : List Hit := l.insertionSort hitGe

/-- Keeping condition of `deduplicate`: the entry `(i, x)` of `l.enum` is kept
iff `x`'s score is maximal within its URL group and `i` is the first index
where that maximum is attained. -/
def KeptP (l : List Hit) (p : Nat × Hit) : Prop :=
  ∀ q ∈ l.enum, q.2.url = p.2.url →
    q.2.score < p.2.score ∨ (q.2.score = p.2.score ∧ p.1 ≤ q.1)

instance (l : List Hit) (p : Nat × Hit) : Decidable (KeptP l p) :=
  inferInstanceAs (Decidable (∀ q ∈ l.enum, _))

/-- Modelled from the spec: `deduplicate` (imported from
`app.helpers.helpers`, whose source is not part of this tree): "group by
normalized URL; within a group, keep exactly one item — the one with the
highest score; discard the rest"; the kept item sits at the first position
where the group's maximal score occurs, so input order among kept items is
preserved. -/
def deduplicate (l : List Hit) : List Hit :=
  (l.enum.filter (fun p => decide (KeptP l p))).map Prod.snd

/-- Outcome of the HTTP POST to `os.environ["neural_api"] + "neural/rerank/"`:
an HTTP 200 with a well-formed payload carrying reordered pages, a non-2xx
response, or a raised exception (timeout, connection error, malformed
payload). -/
inductive RerankResp where
  | ok (pages : List Hit)
  | non200
  | exn
deriving DecidableEq

/-- Session-page cache content: full fused list keyed by (user_id, id). -/
def CacheStore := List ((String × String) × List Hit)

/-- Modelled from the spec: the page size constant of the session cache
(`SessionPageCache` serves fixed-size pages, "page size constant, e.g. 10";
the `Cache` model class is not part of this tree). -/
def cachePageSize : Nat := 10

/-- Modelled from the spec: `Cache.search(user_id, id, page)` returns the
cached page and total count when the key is present, and an explicit miss
`(0, [])` otherwise. -/
def cacheLookup (store : CacheStore) (user_id search_id : String) (index : Nat) :
    Nat × List Hit :=
  match store.find? (fun e => e.1 = (user_id, search_id)) with
  | none => (0, [])
  | some e => (e.2.length, (e.2.drop (cachePageSize * index)).take cachePageSize)

/-- External collaborators of `search` / `cache_search`, as parameters.
`Except Unit` results model calls that can raise (network/DB). -/
structure SearchEnv where
  elastic_search : String → List String → Nat → Nat → Except Unit (List Hit)
  webpages_elastic_search : String → List String → Nat → Nat → Except Unit (List Hit)
  get_submissions : String → Nat → Except Unit (Nat × List Hit)
  get_community : String → Nat → Except Unit (Nat × List Hit)
  community_cores : String → Option (List (String × List String))
  neural_rerank : List Hit → String → RerankResp
  cache_ctor : Option CacheStore
  standardize_url : String → String

/-- Arguments of `cache_search` (mirrors its Python signature). -/
structure CSArgs where
  query : String
  search_id : String
  index : Nat
  communities : List String
  user_id : String
  own_submissions : Bool
  toggle_webpage_results : Bool
  url_core_retrieve : Option String

/-- Observable outcome of one `cache_search` call: whether the webpages index
was queried, whether (and how) the rerank call completed, the value of the
process-wide `"neural_api" in os.environ` flag afterwards, the full fused
list passed to `cache.insert` (when that point is reached), and the returned
`(number_of_hits, page)` or the propagated exception. -/
structure CSOut where
  webpages_queried : Bool
  rerank_outcome : Option RerankResp
  neural_after : Bool
  fused_full : Option (List Hit)
  result : Except Unit (Nat × List Hit)

/-- The curated-content loop of `cache_search` (lines 1086-1099): for each
scoped community, look up its `CommunityCores` record; when the standardized
URL has core content, re-query the submissions gateway with the entry's
hashtags and append every returned hit with `hit["_score"] += 100` to the
accumulated candidate list. -/
def core_retrieve_loop (env : SearchEnv) (url : String) :
    List String → List Hit → Except Unit (List Hit)
  | [], acc => .ok acc
  | community_id :: rest, acc =>
    match env.community_cores community_id with
    | none => core_retrieve_loop env url rest acc
    | some core_content =>
      match (core_content.find? (fun e => e.1 = url)).map (fun e => e.2) with
      | none => core_retrieve_loop env url rest acc
      | some tag_keys =>
        let core_hashtags := firstDedup tag_keys
        match env.elastic_search (joinSpace core_hashtags) [community_id] 0 1000 with
        | .error e => .error e
        | .ok core_hits =>
          core_retrieve_loop env url rest
            (acc ++ core_hits.map (fun h => { h with score := h.score + 100 }))

/-- Lines 1083-1099: when `url_core_retrieve` is set, standardize it and run
the curated-content loop over the scoped communities. -/
def core_augment (env : SearchEnv) (url_core_retrieve : Option String)
    (communities : List String) (submissions_hits : List Hit) :
    Except Unit (List Hit) :=
  match url_core_retrieve with
  | none => .ok submissions_hits
  | some u => core_retrieve_loop env (env.standardize_url u) communities submissions_hits

/-- The `cache.insert` step (line 1151): when `Cache()` failed earlier
(`cache` is `None`), attribute access on `None` raises an `AttributeError`;
otherwise the full list is stored and the requested fixed-size page slice is
returned (insert behaviour modelled from the spec: store the full list,
return the page at the requested index, empty when out of range). -/
def insert_result (cache_ctor : Option CacheStore) (index : Nat)
    (pages : List Hit) : Except Unit (Nat × List Hit) :=
  match cache_ctor with
  | none => .error ()
  | some _ =>
    .ok (pages.length, (pages.drop (cachePageSize * index)).take cachePageSize)

/-- Tail of the recompute path of `cache_search` (lines 1125-1152): the
optional rerank call, the sort, the deduplication and the cache insert.
On HTTP 200 the source binds `pages = resp_json["pages"]`, but that binding
is dead: line 1142 rebinds `pages = sorted(submissions_pages, ...)`
unconditionally. On a raised exception the source deletes `neural_api` from
the environment; a non-2xx response leaves it set. `number_of_hits` is the
length of the full deduplicated list (line 1150). -/
def finish_fusion (env : SearchEnv) (neural : Bool) (a : CSArgs) (wq : Bool)
    (submissions_pages : List Hit) : CSOut :=
  let rerank_outcome : Option RerankResp :=
    if neural then some (env.neural_rerank submissions_pages a.query) else none
  let neural_after :=
    match rerank_outcome with
    | some .exn => false
    | _ => neural
  let pages := deduplicate (sortByScoreDesc submissions_pages)
  ⟨wq, rerank_outcome, neural_after, some pages,
    insert_result env.cache_ctor a.index pages⟩

/-- Webpages step of the recompute path (lines 1108-1118): the result of
`webpages_elastic_manager.search` is concatenated onto the submissions
candidates (`combine_pages` is modelled from the spec as concatenation;
`create_page` and the hydration helpers are modelled from the spec as
preserving each hit's canonical URL and score). -/
def redo_after_web (env : SearchEnv) (neural : Bool) (a : CSArgs)
    (submissions_pages : List Hit) : Except Unit (List Hit) → CSOut
  | .error _ => ⟨true, none, neural, none, .error ()⟩
  | .ok webpages_hits =>
    finish_fusion env neural a true (submissions_pages ++ webpages_hits)

/-- Recompute path after the curated-content augmentation: optionally query
the webpages gateway, then finish the fusion. -/
def redo_after_core (env : SearchEnv) (neural : Bool) (a : CSArgs) :
    Except Unit (List Hit) → CSOut
  | .error _ => ⟨false, none, neural, none, .error ()⟩
  | .ok submissions_pages =>
    if a.toggle_webpage_results then
      redo_after_web env neural a submissions_pages
        (env.webpages_elastic_search a.query [] 0 1000)
    else finish_fusion env neural a false submissions_pages

/-- Recompute path after the submissions-gateway query (line 1079): feed the
hits through the curated-content augmentation. -/
def redo_with_subs (env : SearchEnv) (neural : Bool) (a : CSArgs) :
    Except Unit (List Hit) → CSOut
  | .error _ => ⟨false, none, neural, none, .error ()⟩
  | .ok submissions_hits =>
    redo_after_core env neural a
      (core_augment env a.url_core_retrieve a.communities submissions_hits)

/-- Recompute ("(re)do the search") path of `cache_search`
(lines 1077-1152). -/
def redo_search (env : SearchEnv) (neural : Bool) (a : CSArgs) : CSOut :=
  redo_with_subs env neural a (env.elastic_search a.query a.communities 0 1000)

/-- Cache consultation step of `cache_search` (lines 1070-1077): on a hit the
cached page is returned; an empty page (miss, expired, or out of range)
triggers the recompute. -/
def cache_try (env : SearchEnv) (neural : Bool) (a : CSArgs)
    (found : Nat × List Hit) : CSOut :=
  if found.2 ≠ [] then ⟨false, none, neural, none, .ok found⟩
  else redo_search env neural a

/-- `cache_search` (lines 1025-1155). The `own_submissions or query == ""`
branch queries one submissions-gateway method directly (an empty community
dict makes `list(communities.keys())[0]` raise). Otherwise the session cache
is consulted (`Cache()` failing yields `cache = None` and a guaranteed miss),
and on a miss the search is recomputed. -/
def cache_search (env : SearchEnv) (neural : Bool) (a : CSArgs) : CSOut :=
  if a.own_submissions ∨ a.query = "" then
    ⟨false, none, neural, none,
      if a.own_submissions then env.get_submissions a.user_id a.index
      else
        match a.communities.head? with
        | none => .error ()
        | some c => env.get_community c a.index⟩
  else
    cache_try env neural a
      (match env.cache_ctor with
       | some store => cacheLookup store a.user_id a.search_id a.index
       | none => (0, []))

/-- Request-independent user context of the `search` endpoint. -/
structure UserEnv where
  user_communities : List String
  valid_object_id : String → Bool
  community_names : String → Option String
  noun_phrases : String → List String

/-- Request arguments of the `search` endpoint (fresh search: no search_id). -/
structure SearchReq where
  query : String
  source : String
  highlighted_text : String
  url : String
  community : String
  own_submissions : Bool
  page : Nat

/-- Query derivation of `search` (lines 634-650): on an empty query arriving
as an `extension_open` event (or any `note_automatic` event), fall back to
the URL when there is no highlighted text, to the hash-stripped highlighted
text verbatim when it has fewer than 10 words, and otherwise to the joined
set of noun phrases of the hash-stripped text (`TextBlob(...).noun_phrases`
is the external `noun_phrases` parameter). -/
def derive_query (noun_phrases : String → List String)
    (query source highlighted_text url : String) : String :=
  if (query = "" ∧ source = "extension_open") ∨ source = "note_automatic" then
    let highlighted_text_nohash := subHash highlighted_text
    if highlighted_text = "" then url
    else if (pyWords highlighted_text).length < 10 then highlighted_text_nohash
    else joinSpace (firstDedup (noun_phrases highlighted_text_nohash))
  else query

/-- Result of the request-preparation phase of `search` (lines 611-753):
derived query, resolved community keys (`rc_dict`), webpage-index toggle and
curated-retrieval URL. -/
structure PreparedSearch where
  query : String
  communities : List String
  toggle_webpage_results : Bool
  url_core_retrieve : Option String

/-- `rc_dict` construction (lines 730-742) plus the final webpage toggle:
keep the requested community ids whose name resolves, and turn webpage
results off when exactly one name resolved while the user has several
communities. -/
def mk_prepared (uenv : UserEnv) (query : String) (requested : List String)
    (toggle : Bool) (url_core_retrieve : Option String) : PreparedSearch :=
  let rc_keys := firstDedup (requested.filter (fun c => (uenv.community_names c).isSome))
  let toggle :=
    if rc_keys.length = 1 ∧ 1 < uenv.user_communities.length then false else toggle
  ⟨query, rc_keys, toggle, url_core_retrieve⟩

/-- Preparation phase of a fresh `search` request (lines 611-753): truncate
inputs to 1000 characters, set the curated-retrieval flag, turn the webpage
index off for hashtag queries (`"#" in query`), derive the query, resolve
the requested communities ("all" or one specific id, with validity and
membership checks), and build `rc_dict`. -/
def search_prepare (uenv : UserEnv) (req : SearchReq) :
    Except String PreparedSearch :=
  let highlighted_text := pyTake req.highlighted_text 1000
  let query₀ := pyTake req.query 1000
  let url_core_retrieve : Option String :=
    if query₀ = "" ∧ req.source = "extension_open" then some req.url else none
  let toggle₁ := if query₀ ≠ "" ∧ pyContains query₀ '#' then false else true
  let query := derive_query uenv.noun_phrases query₀ req.source highlighted_text req.url
  if req.community = "all" then
    .ok (mk_prepared uenv query uenv.user_communities toggle₁ url_core_retrieve)
  else if ¬ uenv.valid_object_id req.community then
    .error "Community ID is invalid."
  else if req.community ∉ uenv.user_communities then
    .error "You do not have access to this community."
  else
    .ok (mk_prepared uenv query [req.community] false url_core_retrieve)

/-- Observable outcome of one fresh `search` request. -/
structure SEOut where
  webpages_queried : Bool
  rerank_outcome : Option RerankResp
  neural_after : Bool
  final_query : String
  resp : Except String (Nat × List Hit)

/-- The `search` endpoint on a fresh search (lines 582-762): prepare the
request, run `cache_search`, and convert any propagated exception into the
catch-all error response of the route handler. -/
def search_args (prep : PreparedSearch) (req : SearchReq)
    (user_id search_id : String) : CSArgs :=
  ⟨prep.query, search_id, req.page, prep.communities, user_id,
    req.own_submissions, prep.toggle_webpage_results, prep.url_core_retrieve⟩

/-- Route-handler tail of a fresh `search` request: run `cache_search` on the
prepared arguments and let the catch-all `except` of the route turn a
propagated exception into the error response. -/
def search_endpoint (env : SearchEnv) (uenv : UserEnv) (neural : Bool)
    (user_id search_id : String) (req : SearchReq) : SEOut :=
  match search_prepare uenv req with
  | .error e => ⟨false, none, neural, "", .error e⟩
  | .ok prep =>
    let cs := cache_search env neural (search_args prep req user_id search_id)
    ⟨cs.webpages_queried, cs.rerank_outcome, cs.neural_after, prep.query,
      match cs.result with
      | .error _ => .error "Failed to search, please try again later."
      | .ok (n, p) => .ok (n, p)⟩

/-- One request of a process-level run: its external collaborators and its
`cache_search` arguments. The process-wide `"neural_api" in os.environ` flag
is threaded from one request to the next. -/
structure ProcessReq where
  env : SearchEnv
  args : CSArgs

/-- A sequence of `cache_search` calls within one process: the `neural_api`
environment flag produced by each call is the one seen by the next. -/
def process_run (neural : Bool) : List ProcessReq → List CSOut
  | [] => []
  | r :: rest =>
    let o := cache_search r.env neural r.args
    o :: process_run o.neural_after rest

/-- The fixed fallback query of recommendation explore mode (line 903). -/
def default_search_text : String := "transformer natural language processing illinois machine learning startup neural network hack hacker technology future explanation application building coding search engine computer vision recurrent classification generation chatgpt gpt3 data"

/-- Explore-mode text derivation of `get_recommendations` (lines 896-903):
when the concatenated recent text exceeds 3 characters, join the set of its
noun phrases longer than 3 characters; when the result is still empty, fall
back to the fixed default term set. -/
def explore_search_text (noun_phrases : String → List String) (full_text : String) :
    String :=
  let search_text := ""
  let search_text :=
    if 3 < full_text.length then
      search_text ++ " " ++
        joinSpace (firstDedup ((noun_phrases full_text).filter (fun x => 3 < x.length)))
    else search_text
  if search_text = "" then default_search_text else search_text

/-- Term sampling of explore mode (lines 906-910): split the search text; when
it has more than 10 terms, shuffle (the external `shuffle` parameter models
`random.shuffle`) and keep exactly the first 10. -/
def explore_sample_terms (shuffle : List String → List String) (search_text : String) :
    List String :=
  let split_text := pyWords search_text
  if 10 < split_text.length then (shuffle split_text).take 10 else split_text

/-- One `CommunityCores.update(community_id, url, hashtags, submission_id)`
call as issued by a submission lifecycle handler. -/
structure CoreUpdate where
  community_id : String
  url : String
  hashtags : List String
  submission_id : String
deriving DecidableEq

/-- Core updates issued by `create_submission_helper` (lines 981-991):
`hashtags` is the list returned by `elastic_manager.add_to_index`. -/
def create_submission_core_updates (standardize_url : String → String)
    (hashtags : List String) (community source_url doc_id : String) :
    List CoreUpdate :=
  if "#core" ∈ hashtags then
    [⟨community, standardize_url source_url, hashtags.filter (· ≠ "#core"), doc_id⟩]
  else []

/-- Core updates issued by full submission deletion (lines 326-333):
`explanation_tags`/`highlighted_tags` are the `extract_hashtags` results on
the old record's texts, and the update carries an empty hashtag list for
every community the deleting user had added the submission to. -/
def delete_submission_core_updates (standardize_url : String → String)
    (explanation_tags highlighted_tags : List String)
    (record_communities : List String) (source_url doc_id : String) :
    List CoreUpdate :=
  if "#core" ∈ firstDedup (explanation_tags ++ highlighted_tags) then
    record_communities.map (fun c => ⟨c, standardize_url source_url, [], doc_id⟩)
  else []

/-- Core updates issued by removal from one community (lines 363-369). -/
def remove_community_core_updates (standardize_url : String → String)
    (explanation_tags highlighted_tags : List String)
    (community_id source_url doc_id : String) : List CoreUpdate :=
  if "#core" ∈ firstDedup (explanation_tags ++ highlighted_tags) then
    [⟨community_id, standardize_url source_url, [], doc_id⟩]
  else []

/-- Core updates issued when a PATCH adds a submission to a community
(lines 453-460). -/
def patch_add_community_core_updates (standardize_url : String → String)
    (highlighted_tags explanation_tags : List String)
    (community_id source_url doc_id : String) : List CoreUpdate :=
  let hashtags := firstDedup (highlighted_tags ++ explanation_tags)
  if "#core" ∈ hashtags then
    [⟨community_id, standardize_url source_url, hashtags.filter (· ≠ "#core"), doc_id⟩]
  else []

/-- Core updates issued after a PATCH edits a submission's text or URL
(lines 469-521): `old_core_flag` records whether a replaced text carried
"#core", `indexed_hashtags` is the list returned by
`elastic_manager.add_to_index` on the edited submission, and
`all_communities` flattens `submission.communities`. The two sequential
`if`s of lines 503-508 decide the hashtag list and the update flag; each
community gets a retraction at the old URL when the URL changed, then the
update at the new URL. -/
def patch_edit_hashtags_flag (old_core_flag : Bool)
    (indexed_hashtags : List String) : List String × Bool :=
  let step1 :=
    if old_core_flag ∧ "#core" ∉ indexed_hashtags then (([] : List String), true)
    else (indexed_hashtags, false)
  if "#core" ∈ step1.1 then (step1.1.filter (· ≠ "#core"), true)
  else step1

/-- Update calls of the PATCH content-edit path, continued: when the flag is
set, each community gets a retraction at the old URL (if the URL changed)
followed by the update at the new URL with the computed hashtag list. -/
def patch_edit_core_updates (standardize_url : String → String)
    (old_core_flag : Bool) (indexed_hashtags : List String)
    (all_communities : List String) (old_source_url new_source_url doc_id : String) :
    List CoreUpdate :=
  let step2 := patch_edit_hashtags_flag old_core_flag indexed_hashtags
  if step2.2 then
    all_communities.flatMap (fun community_id =>
      (if standardize_url new_source_url ≠ standardize_url old_source_url then
        [⟨community_id, standardize_url old_source_url, [], doc_id⟩]
      else []) ++
      [⟨community_id, standardize_url new_source_url, step2.1, doc_id⟩])
  else []

/-! ### Properties of `deduplicate` and the sort -/

theorem enum_pairwise_fst_lt (l : List Hit) :
    l.enum.Pairwise (fun p q => p.1 < q.1) := by
  rw [List.pairwise_iff_getElem]
  intro i j hi hj hij
  simpa [List.getElem_enum] using hij

theorem mem_enum_of_mem {x : Hit} {l : List Hit} (h : x ∈ l) :
    ∃ i, (i, x) ∈ l.enum := by
  obtain ⟨i, hi, hx⟩ := List.mem_iff_getElem.mp h
  refine ⟨i, List.mem_enum_iff_getElem?.mpr ?_⟩
  simp [List.getElem?_eq_getElem, hi, hx]

theorem snd_mem_of_mem_enum {p : Nat × Hit} {l : List Hit} (h : p ∈ l.enum) :
    p.2 ∈ l := by
  have := List.mem_enum_iff_getElem?.mp h
  exact List.getElem?_mem this

theorem eq_of_mem_enum_fst {p q : Nat × Hit} {l : List Hit}
    (hp : p ∈ l.enum) (hq : q ∈ l.enum) (h : p.1 = q.1) : p = q := by
  have hp' := List.mem_enum_iff_getElem?.mp hp
  have hq' := List.mem_enum_iff_getElem?.mp hq
  rw [h] at hp'
  rw [hp'] at hq'
  exact Prod.ext h (Option.some.inj hq')

theorem mem_deduplicate_kept {l : List Hit} {x : Hit} (h : x ∈ deduplicate l) :
    ∃ i, (i, x) ∈ l.enum ∧ KeptP l (i, x) := by
  obtain ⟨p, hp, hpx⟩ := List.mem_map.mp h
  obtain ⟨hpe, hpk⟩ := List.mem_filter.mp hp
  refine ⟨p.1, ?_, ?_⟩
  · rw [show ((p.1, x) : Nat × Hit) = p from by rw [← hpx]]
    exact hpe
  · rw [show ((p.1, x) : Nat × Hit) = p from by rw [← hpx]]
    exact of_decide_eq_true hpk

theorem deduplicate_sublist (l : List Hit) : (deduplicate l).Sublist l := by
  have h1 : (l.enum.filter fun p => decide (KeptP l p)).Sublist l.enum :=
    List.filter_sublist _
  have h2 := h1.map Prod.snd
  rwa [List.enum_map_snd] at h2

theorem deduplicate_max {l : List Hit} {x : Hit} (hx : x ∈ deduplicate l) :
    x ∈ l ∧ ∀ y ∈ l, y.url = x.url → y.score ≤ x.score := by
  refine ⟨(deduplicate_sublist l).subset hx, ?_⟩
  obtain ⟨i, hie, hik⟩ := mem_deduplicate_kept hx
  intro y hy hyu
  obtain ⟨j, hje⟩ := mem_enum_of_mem hy
  rcases hik (j, y) hje hyu with h | h
  · exact le_of_lt h
  · exact le_of_eq h.1

theorem deduplicate_urls_nodup (l : List Hit) :
    (deduplicate l).Pairwise (fun a b => a.url ≠ b.url) := by
  have hflt : (l.enum.filter fun p => decide (KeptP l p)).Pairwise
      (fun p q : Nat × Hit => p.1 < q.1) :=
    (enum_pairwise_fst_lt l).sublist (List.filter_sublist _)
  have hurl : (l.enum.filter fun p => decide (KeptP l p)).Pairwise
      (fun p q : Nat × Hit => p.2.url ≠ q.2.url) := by
    refine hflt.imp_of_mem ?_
    intro p q hp hq hlt hurl
    have hpk : KeptP l p := of_decide_eq_true (List.mem_filter.mp hp).2
    have hqk : KeptP l q := of_decide_eq_true (List.mem_filter.mp hq).2
    have hpe : p ∈ l.enum := (List.mem_filter.mp hp).1
    have hqe : q ∈ l.enum := (List.mem_filter.mp hq).1
    rcases hqk p hpe hurl with h | h
    · rcases hpk q hqe hurl.symm with h' | h'
      · exact absurd h' (not_lt_of_gt h)
      · exact absurd h'.1.symm (ne_of_lt h)
    · exact absurd h.2 (not_le_of_lt hlt)
  unfold deduplicate
  exact hurl.map Prod.snd (fun a b h => h)

theorem deduplicate_of_urls_nodup {l : List Hit}
    (h : l.Pairwise (fun a b => a.url ≠ b.url)) : deduplicate l = l := by
  have hall : ∀ p ∈ l.enum, decide (KeptP l p) = true := by
    intro p hpe
    refine decide_eq_true ?_
    intro q hqe hqu
    by_cases hij : q.1 = p.1
    · have : q = p := eq_of_mem_enum_fst hqe hpe hij
      subst this
      exact Or.inr ⟨rfl, le_refl _⟩
    · have hpl := List.pairwise_iff_getElem.mp h
      have hq' := List.mem_enum_iff_getElem?.mp hqe
      have hp' := List.mem_enum_iff_getElem?.mp hpe
      have hqlen : q.1 < l.length := by
        by_contra hc
        rw [List.getElem?_eq_none (le_of_not_lt hc)] at hq'
        exact Option.noConfusion hq'
      have hplen : p.1 < l.length := by
        by_contra hc
        rw [List.getElem?_eq_none (le_of_not_lt hc)] at hp'
        exact Option.noConfusion hp'
      have hq2 : l[q.1] = q.2 := by
        have := List.getElem?_eq_getElem hqlen
        rw [this] at hq'
        exact Option.some.inj hq'
      have hp2 : l[p.1] = p.2 := by
        have := List.getElem?_eq_getElem hplen
        rw [this] at hp'
        exact Option.some.inj hp'
      rcases lt_or_gt_of_ne hij with hlt | hgt
      · have := hpl q.1 p.1 hqlen hplen hlt
        rw [hq2, hp2] at this
        exact absurd hqu this
      · have := hpl p.1 q.1 hplen hqlen hgt
        rw [hq2, hp2] at this
        exact absurd hqu.symm this
  unfold deduplicate
  rw [List.filter_eq_self.mpr hall, List.enum_map_snd]

theorem deduplicate_idem (l : List Hit) :
    deduplicate (deduplicate l) = deduplicate l :=
  deduplicate_of_urls_nodup (deduplicate_urls_nodup l)

theorem exists_first_max (G : List (Nat × Hit))
    (hpw : G.Pairwise (fun p q => p.1 < q.1)) :
    G = [] ∨ ∃ m ∈ G, ∀ q ∈ G,
      q.2.score ≤ m.2.score ∧ (q.2.score = m.2.score → m.1 ≤ q.1) := by
  induction G with
  | nil => exact Or.inl rfl
  | cons x rest ih =>
    refine Or.inr ?_
    rcases ih hpw.tail with hre | ⟨m, hmR, hm⟩
    · subst hre
      refine ⟨x, List.mem_cons_self x [], ?_⟩
      intro q hq
      rcases List.mem_cons.mp hq with h | h
      · subst h
        exact ⟨le_refl _, fun _ => le_refl _⟩
      · exact absurd h (List.not_mem_nil q)
    · by_cases hxm : m.2.score ≤ x.2.score
      · refine ⟨x, List.mem_cons_self x rest, ?_⟩
        intro q hq
        rcases List.mem_cons.mp hq with h | h
        · subst h
          exact ⟨le_refl _, fun _ => le_refl _⟩
        · refine ⟨le_trans (hm q h).1 hxm, fun _ => ?_⟩
          exact le_of_lt ((List.pairwise_cons.mp hpw).1 q h)
      · push_neg at hxm
        refine ⟨m, List.mem_cons_of_mem x hmR, ?_⟩
        intro q hq
        rcases List.mem_cons.mp hq with h | h
        · subst h
          exact ⟨le_of_lt hxm, fun he => absurd he (ne_of_lt hxm)⟩
        · exact hm q h

theorem deduplicate_covers {l : List Hit} {x : Hit} (hx : x ∈ l) :
    ∃ y ∈ deduplicate l, y.url = x.url := by
  classical
  set G := l.enum.filter (fun q => decide (q.2.url = x.url)) with hG
  obtain ⟨i, hie⟩ := mem_enum_of_mem hx
  have hiG : (i, x) ∈ G := List.mem_filter.mpr ⟨hie, by simp⟩
  have hGpw : G.Pairwise (fun p q => p.1 < q.1) :=
    (enum_pairwise_fst_lt l).sublist (List.filter_sublist _)
  rcases exists_first_max G hGpw with hne | ⟨m, hmG, hm⟩
  · rw [hne] at hiG
    exact absurd hiG (List.not_mem_nil _)
  have hmE : m ∈ l.enum := (List.mem_filter.mp hmG).1
  have hmu : m.2.url = x.url := of_decide_eq_true (List.mem_filter.mp hmG).2
  have hkept : KeptP l m := by
    intro q hqe hqu
    have hqG : q ∈ G :=
      List.mem_filter.mpr ⟨hqe, decide_eq_true (hqu.trans hmu)⟩
    rcases lt_or_eq_of_le (hm q hqG).1 with hlt | heq
    · exact Or.inl hlt
    · exact Or.inr ⟨heq, (hm q hqG).2 heq⟩
  refine ⟨m.2, ?_, hmu⟩
  unfold deduplicate
  exact List.mem_map.mpr ⟨m, List.mem_filter.mpr ⟨hmE, decide_eq_true hkept⟩, rfl⟩

theorem sortByScoreDesc_sorted (l : List Hit) :
    (sortByScoreDesc l).Pairwise hitGe :=
  List.sorted_insertionSort hitGe l

theorem sortByScoreDesc_perm (l : List Hit) : (sortByScoreDesc l).Perm l :=
  List.perm_insertionSort hitGe l

theorem fused_sorted_and_nodup (c : List Hit) :
    (deduplicate (sortByScoreDesc c)).Pairwise hitGe ∧
      (deduplicate (sortByScoreDesc c)).Pairwise (fun a b => a.url ≠ b.url) :=
  ⟨(sortByScoreDesc_sorted c).sublist (deduplicate_sublist _),
    deduplicate_urls_nodup _⟩

/-! ### Structure lemmas about the fusion pipeline -/

theorem finish_fusion_fused (env : SearchEnv) (neural : Bool) (a : CSArgs)
    (wq : Bool) (sp : List Hit) :
    (finish_fusion env neural a wq sp).fused_full =
      some (deduplicate (sortByScoreDesc sp)) ∧
    ∀ n p, (finish_fusion env neural a wq sp).result = .ok (n, p) →
      n = (deduplicate (sortByScoreDesc sp)).length ∧
      p = ((deduplicate (sortByScoreDesc sp)).drop
            (cachePageSize * a.index)).take cachePageSize := by
  refine ⟨rfl, ?_⟩
  intro n p h
  unfold finish_fusion insert_result at h
  cases hcc : env.cache_ctor with
  | none => rw [hcc] at h; exact absurd h (by simp)
  | some store =>
    rw [hcc] at h
    simp only [Except.ok.injEq, Prod.mk.injEq] at h
    exact ⟨h.1.symm, h.2.symm⟩

theorem redo_search_fused (env : SearchEnv) (neural : Bool) (a : CSArgs)
    (F : List Hit) (hF : (redo_search env neural a).fused_full = some F) :
    (∃ c, F = deduplicate (sortByScoreDesc c)) ∧
    ∀ n p, (redo_search env neural a).result = .ok (n, p) →
      n = F.length ∧
      p = (F.drop (cachePageSize * a.index)).take cachePageSize := by
  unfold redo_search at hF ⊢
  cases hs : env.elastic_search a.query a.communities 0 1000 with
  | error e =>
    rw [hs] at hF
    simp [redo_with_subs] at hF
  | ok subs =>
    rw [hs] at hF
    simp only [redo_with_subs] at hF ⊢
    cases hc : core_augment env a.url_core_retrieve a.communities subs with
    | error e =>
      rw [hc] at hF
      simp [redo_after_core] at hF
    | ok subs2 =>
      rw [hc] at hF
      simp only [redo_after_core] at hF ⊢
      by_cases ht : a.toggle_webpage_results = true
      · rw [if_pos ht] at hF ⊢
        cases hw : env.webpages_elastic_search a.query [] 0 1000 with
        | error e =>
          rw [hw] at hF
          simp [redo_after_web] at hF
        | ok web =>
          rw [hw] at hF
          simp only [redo_after_web] at hF ⊢
          obtain ⟨h1, h2⟩ := finish_fusion_fused env neural a true (subs2 ++ web)
          rw [h1] at hF
          obtain rfl := Option.some.inj hF
          exact ⟨⟨subs2 ++ web, rfl⟩, h2⟩
      · rw [if_neg ht] at hF ⊢
        obtain ⟨h1, h2⟩ := finish_fusion_fused env neural a false subs2
        rw [h1] at hF
        obtain rfl := Option.some.inj hF
        exact ⟨⟨subs2, rfl⟩, h2⟩

theorem cache_search_fused (env : SearchEnv) (neural : Bool) (a : CSArgs)
    (F : List Hit) (hF : (cache_search env neural a).fused_full = some F) :
    (∃ c, F = deduplicate (sortByScoreDesc c)) ∧
    ∀ n p, (cache_search env neural a).result = .ok (n, p) →
      n = F.length ∧
      p = (F.drop (cachePageSize * a.index)).take cachePageSize := by
  unfold cache_search at hF ⊢
  by_cases hown : a.own_submissions ∨ a.query = ""
  · rw [if_pos hown] at hF
    exact absurd hF (by simp)
  · rw [if_neg hown] at hF ⊢
    unfold cache_try at hF ⊢
    by_cases hfound : (match env.cache_ctor with
      | some store => cacheLookup store a.user_id a.search_id a.index
      | none => (0, [])).2 ≠ []
    · rw [if_pos hfound] at hF
      exact absurd hF (by simp)
    · rw [if_neg hfound] at hF ⊢
      exact redo_search_fused env neural a F hF

/-! ### Rerank flag lemmas -/

theorem finish_fusion_neural_false (env : SearchEnv) (a : CSArgs) (wq : Bool)
    (sp : List Hit) :
    (finish_fusion env false a wq sp).rerank_outcome = none ∧
      (finish_fusion env false a wq sp).neural_after = false := ⟨rfl, rfl⟩

theorem redo_after_web_neural_false (env : SearchEnv) (a : CSArgs) (sp : List Hit) :
    ∀ e, (redo_after_web env false a sp e).rerank_outcome = none ∧
      (redo_after_web env false a sp e).neural_after = false
  | .error _ => ⟨rfl, rfl⟩
  | .ok web => finish_fusion_neural_false env a true (sp ++ web)

theorem redo_after_core_neural_false (env : SearchEnv) (a : CSArgs)
    (e : Except Unit (List Hit)) :
    (redo_after_core env false a e).rerank_outcome = none ∧
      (redo_after_core env false a e).neural_after = false := by
  cases e with
  | error u => exact ⟨rfl, rfl⟩
  | ok sp =>
    unfold redo_after_core
    split
    · exact ⟨rfl, rfl⟩
    · split
      · exact redo_after_web_neural_false env a _ _
      · exact finish_fusion_neural_false env a false _

theorem redo_search_neural_false (env : SearchEnv) (a : CSArgs) :
    (redo_search env false a).rerank_outcome = none ∧
      (redo_search env false a).neural_after = false := by
  unfold redo_search
  cases env.elastic_search a.query a.communities 0 1000 with
  | error e => exact ⟨rfl, rfl⟩
  | ok subs => exact redo_after_core_neural_false env a _

theorem cache_search_neural_false (env : SearchEnv) (a : CSArgs) :
    (cache_search env false a).rerank_outcome = none ∧
      (cache_search env false a).neural_after = false := by
  unfold cache_search
  split
  · exact ⟨rfl, rfl⟩
  · unfold cache_try
    split
    · exact ⟨rfl, rfl⟩
    · exact redo_search_neural_false env a

theorem finish_fusion_exn (env : SearchEnv) (b : Bool) (a : CSArgs) (wq : Bool)
    (sp : List Hit)
    (h : (finish_fusion env b a wq sp).rerank_outcome = some RerankResp.exn) :
    (finish_fusion env b a wq sp).neural_after = false := by
  cases b with
  | false => exact absurd h (by simp [finish_fusion])
  | true =>
    unfold finish_fusion at h ⊢
    simp only at h ⊢
    rw [if_pos trivial] at h ⊢
    rw [h]

theorem redo_after_web_exn (env : SearchEnv) (b : Bool) (a : CSArgs)
    (sp : List Hit) (e : Except Unit (List Hit))
    (h : (redo_after_web env b a sp e).rerank_outcome = some RerankResp.exn) :
    (redo_after_web env b a sp e).neural_after = false := by
  cases e with
  | error u => exact absurd h (by simp [redo_after_web])
  | ok web => exact finish_fusion_exn env b a true (sp ++ web) h

theorem redo_after_core_exn (env : SearchEnv) (b : Bool) (a : CSArgs)
    (e : Except Unit (List Hit))
    (h : (redo_after_core env b a e).rerank_outcome = some RerankResp.exn) :
    (redo_after_core env b a e).neural_after = false := by
  cases e with
  | error u => exact absurd h (by simp [redo_after_core])
  | ok sp =>
    unfold redo_after_core at h ⊢
    revert h
    split
    · intro h
      exact absurd h (by simp)
    · split
      · intro h
        exact redo_after_web_exn env b a _ _ h
      · intro h
        exact finish_fusion_exn env b a false _ h

theorem redo_search_exn (env : SearchEnv) (b : Bool) (a : CSArgs)
    (h : (redo_search env b a).rerank_outcome = some RerankResp.exn) :
    (redo_search env b a).neural_after = false := by
  unfold redo_search at h ⊢
  revert h
  cases env.elastic_search a.query a.communities 0 1000 with
  | error e =>
    intro h
    exact absurd h (by simp [redo_with_subs])
  | ok subs =>
    unfold redo_with_subs
    intro h
    exact redo_after_core_exn env b a _ h

theorem cache_search_exn (env : SearchEnv) (b : Bool) (a : CSArgs)
    (h : (cache_search env b a).rerank_outcome = some RerankResp.exn) :
    (cache_search env b a).neural_after = false := by
  unfold cache_search at h ⊢
  revert h
  split
  · intro h
    exact absurd h (by simp)
  · unfold cache_try
    split
    · intro h
      exact absurd h (by simp)
    · intro h
      exact redo_search_exn env b a h

/-! ### Webpage-toggle and error-propagation lemmas -/

theorem redo_after_core_toggle_off (env : SearchEnv) (b : Bool) (a : CSArgs)
    (htog : a.toggle_webpage_results = false) (e : Except Unit (List Hit)) :
    (redo_after_core env b a e).webpages_queried = false := by
  cases e with
  | error u => rfl
  | ok sp =>
    unfold redo_after_core
    split
    · rfl
    · split
      · rename_i hcond
        rw [htog] at hcond
        exact absurd hcond (by simp)
      · rfl

theorem cache_search_toggle_off (env : SearchEnv) (b : Bool) (a : CSArgs)
    (htog : a.toggle_webpage_results = false) :
    (cache_search env b a).webpages_queried = false := by
  unfold cache_search
  split
  · rfl
  · unfold cache_try
    split
    · rfl
    · unfold redo_search redo_with_subs
      cases env.elastic_search a.query a.communities 0 1000 with
      | error e => rfl
      | ok subs => exact redo_after_core_toggle_off env b a htog _

theorem cache_search_gateway_error (env : SearchEnv) (b : Bool) (a : CSArgs)
    (hown : a.own_submissions = false) (hq : a.query ≠ "")
    (hmiss : (match env.cache_ctor with
      | some store => cacheLookup store a.user_id a.search_id a.index
      | none => (0, [])).2 = [])
    (hfail : env.elastic_search a.query a.communities 0 1000 = .error ()) :
    (cache_search env b a).result = .error () := by
  unfold cache_search
  rw [if_neg (by simp [hown, hq])]
  unfold cache_try
  rw [if_neg (by simp [hmiss])]
  unfold redo_search
  rw [hfail]
  rfl

theorem cache_search_webpages_gateway_error (env : SearchEnv) (b : Bool)
    (a : CSArgs) (subs subs2 : List Hit)
    (hown : a.own_submissions = false) (hq : a.query ≠ "")
    (hmiss : (match env.cache_ctor with
      | some store => cacheLookup store a.user_id a.search_id a.index
      | none => (0, [])).2 = [])
    (hsubs : env.elastic_search a.query a.communities 0 1000 = .ok subs)
    (hcore : core_augment env a.url_core_retrieve a.communities subs = .ok subs2)
    (htog : a.toggle_webpage_results = true)
    (hwfail : env.webpages_elastic_search a.query [] 0 1000 = .error ()) :
    (cache_search env b a).result = .error () := by
  unfold cache_search
  rw [if_neg (by simp [hown, hq])]
  unfold cache_try
  rw [if_neg (by simp [hmiss])]
  unfold redo_search
  rw [hsubs]
  unfold redo_with_subs
  simp only []
  rw [hcore]
  unfold redo_after_core
  simp only []
  rw [if_pos htog, hwfail]
  rfl

theorem pyContains_ne_empty {s : String} {c : Char} (h : pyContains s c = true) :
    s ≠ "" := by
  intro he
  subst he
  simp [pyContains] at h

theorem mk_prepared_toggle_false (uenv : UserEnv) (q : String)
    (requested : List String) (ucr : Option String) :
    (mk_prepared uenv q requested false ucr).toggle_webpage_results = false := by
  simp [mk_prepared]

theorem search_prepare_hash_toggle (uenv : UserEnv) (req : SearchReq)
    (hq : pyContains (pyTake req.query 1000) '#' = true) (prep : PreparedSearch)
    (hok : search_prepare uenv req = .ok prep) :
    prep.toggle_webpage_results = false := by
  have hcond : pyTake req.query 1000 ≠ "" ∧ pyContains (pyTake req.query 1000) '#' = true :=
    ⟨pyContains_ne_empty hq, hq⟩
  unfold search_prepare at hok
  simp only [] at hok
  rw [if_pos hcond] at hok
  by_cases hall : req.community = "all"
  · rw [if_pos hall] at hok
    obtain rfl := Except.ok.inj hok
    exact mk_prepared_toggle_false uenv _ _ _
  · rw [if_neg hall] at hok
    by_cases hvalid : ¬ uenv.valid_object_id req.community = true
    · rw [if_pos hvalid] at hok
      exact absurd hok (by simp)
    · rw [if_neg hvalid] at hok
      by_cases hmem : req.community ∉ uenv.user_communities
      · rw [if_pos hmem] at hok
        exact absurd hok (by simp)
      · rw [if_neg hmem] at hok
        obtain rfl := Except.ok.inj hok
        exact mk_prepared_toggle_false uenv _ _ _

theorem search_endpoint_hash_no_webpages (env : SearchEnv) (uenv : UserEnv)
    (neural : Bool) (user_id search_id : String) (req : SearchReq)
    (hq : pyContains (pyTake req.query 1000) '#' = true) :
    (search_endpoint env uenv neural user_id search_id req).webpages_queried = false := by
  unfold search_endpoint
  cases hp : search_prepare uenv req with
  | error e => rfl
  | ok prep =>
    exact cache_search_toggle_off env neural _
      (search_prepare_hash_toggle uenv req hq prep hp)

/-! ### Process-level reranker behaviour -/

theorem process_run_length (b : Bool) (rs : List ProcessReq) :
    (process_run b rs).length = rs.length := by
  induction rs generalizing b with
  | nil => rfl
  | cons r rest ih => simp [process_run, ih]

theorem process_run_false_none (rs : List ProcessReq) :
    ∀ o ∈ process_run false rs, o.rerank_outcome = none := by
  induction rs with
  | nil =>
    intro o h
    exact absurd h (List.not_mem_nil o)
  | cons r rest ih =>
    intro o h
    unfold process_run at h
    rcases List.mem_cons.mp h with h | h
    · subst h
      exact (cache_search_neural_false r.env r.args).1
    · rw [(cache_search_neural_false r.env r.args).2] at h
      exact ih o h

theorem process_run_after_exn (b : Bool) (rs : List ProcessReq) :
    ∀ (i j : Nat) (oi oj : CSOut), i < j →
      (process_run b rs)[i]? = some oi →
      oi.rerank_outcome = some RerankResp.exn →
      (process_run b rs)[j]? = some oj →
      oj.rerank_outcome = none := by
  induction rs generalizing b with
  | nil =>
    intro i j oi oj hij hoi hexn hoj
    simp [process_run] at hoi
  | cons r rest ih =>
    intro i j oi oj hij hoi hexn hoj
    have hcons : process_run b (r :: rest) =
        cache_search r.env b r.args ::
          process_run (cache_search r.env b r.args).neural_after rest := rfl
    rw [hcons] at hoi hoj
    cases j with
    | zero => exact absurd hij (Nat.not_lt_zero i)
    | succ j' =>
      rw [List.getElem?_cons_succ] at hoj
      cases i with
      | zero =>
        rw [List.getElem?_cons_zero] at hoi
        obtain rfl := Option.some.inj hoi
        have hafter := cache_search_exn r.env b r.args hexn
        rw [hafter] at hoj
        exact process_run_false_none rest oj (List.getElem?_mem hoj)
      | succ i' =>
        rw [List.getElem?_cons_succ] at hoi
        exact ih _ i' j' oi oj (Nat.lt_of_succ_lt_succ hij) hoi hexn hoj

/-! ### Curated-content loop lemmas -/

theorem core_retrieve_loop_append (env : SearchEnv) (url : String) :
    ∀ (cs : List String) (acc out : List Hit),
      core_retrieve_loop env url cs acc = .ok out →
      ∃ adds, out = acc ++ adds := by
  intro cs
  induction cs with
  | nil =>
    intro acc out h
    unfold core_retrieve_loop at h
    obtain rfl := Except.ok.inj h
    exact ⟨[], (List.append_nil acc).symm⟩
  | cons c rest ih =>
    intro acc out h
    unfold core_retrieve_loop at h
    cases hcc : env.community_cores c with
    | none =>
      rw [hcc] at h
      simp only [] at h
      exact ih acc out h
    | some core_content =>
      rw [hcc] at h
      simp only [] at h
      cases hfind : (core_content.find? (fun e => e.1 = url)).map (fun e => e.2) with
      | none =>
        rw [hfind] at h
        simp only [] at h
        exact ih acc out h
      | some tag_keys =>
        rw [hfind] at h
        simp only [] at h
        cases hsearch : env.elastic_search (joinSpace (firstDedup tag_keys)) [c] 0 1000 with
        | error e =>
          rw [hsearch] at h
          simp only [] at h
          exact absurd h (by simp)
        | ok core_hits =>
          rw [hsearch] at h
          simp only [] at h
          obtain ⟨adds, hadds⟩ := ih _ out h
          refine ⟨core_hits.map (fun x => { x with score := x.score + 100 }) ++ adds, ?_⟩
          rw [hadds, List.append_assoc]

theorem core_retrieve_loop_boost (env : SearchEnv) (url : String) :
    ∀ (cs : List String) (acc out : List Hit) (c : String)
      (core_content : List (String × List String)) (tag_keys : List String)
      (core_hits : List Hit),
      core_retrieve_loop env url cs acc = .ok out →
      c ∈ cs →
      env.community_cores c = some core_content →
      (core_content.find? (fun e => e.1 = url)).map (fun e => e.2) = some tag_keys →
      env.elastic_search (joinSpace (firstDedup tag_keys)) [c] 0 1000 = .ok core_hits →
      ∀ x ∈ core_hits, (⟨x.url, x.score + 100⟩ : Hit) ∈ out := by
  intro cs
  induction cs with
  | nil =>
    intro acc out c cc tk chits hloop hc
    exact absurd hc (List.not_mem_nil _)
  | cons c0 rest ih =>
    intro acc out c cc tk chits hloop hc hcc hfind hsearch x hx
    rcases List.mem_cons.mp hc with rfl | hcrest
    · unfold core_retrieve_loop at hloop
      rw [hcc] at hloop
      simp only [] at hloop
      rw [hfind] at hloop
      simp only [] at hloop
      rw [hsearch] at hloop
      simp only [] at hloop
      obtain ⟨adds, rfl⟩ := core_retrieve_loop_append env url rest _ out hloop
      refine List.mem_append.mpr (Or.inl (List.mem_append.mpr (Or.inr ?_)))
      exact List.mem_map.mpr ⟨x, hx, rfl⟩
    · unfold core_retrieve_loop at hloop
      cases hcc0 : env.community_cores c0 with
      | none =>
        rw [hcc0] at hloop
        simp only [] at hloop
        exact ih acc out c cc tk chits hloop hcrest hcc hfind hsearch x hx
      | some cc0 =>
        rw [hcc0] at hloop
        simp only [] at hloop
        cases hfind0 : (cc0.find? (fun e => e.1 = url)).map (fun e => e.2) with
        | none =>
          rw [hfind0] at hloop
          simp only [] at hloop
          exact ih acc out c cc tk chits hloop hcrest hcc hfind hsearch x hx
        | some tk0 =>
          rw [hfind0] at hloop
          simp only [] at hloop
          cases hs0 : env.elastic_search (joinSpace (firstDedup tk0)) [c0] 0 1000 with
          | error e =>
            rw [hs0] at hloop
            simp only [] at hloop
            exact absurd hloop (by simp)
          | ok chits0 =>
            rw [hs0] at hloop
            simp only [] at hloop
            exact ih _ out c cc tk chits hloop hcrest hcc hfind hsearch x hx

/-! ### Helper facts for the claim theorems -/

theorem core_marker_not_mem_filter (l : List String) :
    "#core" ∉ l.filter (· ≠ "#core") := by
  intro h
  have := (List.mem_filter.mp h).2
  simp at this

/-! ### Claim theorems -/

/-- C4: `deduplicate` is idempotent (`dedup (dedup L) = dedup L`); every kept
item belongs to the input and realizes the maximal score of its canonical-URL
group; every input URL keeps exactly one representative (existence here,
uniqueness by the pairwise-distinct-URLs conjunct); and inside `cache_search`
deduplication is applied once over the whole fused sorted list before
pagination: whenever a full fused list is materialized it is the
deduplication of the score-sorted candidate list, carries pairwise-distinct
URLs, is ordered descending by score, and the returned page and total count
are, respectively, a slice of it and its length. -/
theorem C4_dedup_idempotent_fused (L : List Hit) :
    deduplicate (deduplicate L) = deduplicate L ∧
    (∀ x ∈ deduplicate L, x ∈ L ∧ ∀ y ∈ L, y.url = x.url → y.score ≤ x.score) ∧
    (∀ x ∈ L, ∃ y ∈ deduplicate L, y.url = x.url) ∧
    (deduplicate L).Pairwise (fun a b => a.url ≠ b.url) ∧
    (∀ (env : SearchEnv) (neural : Bool) (a : CSArgs) (F : List Hit),
      (cache_search env neural a).fused_full = some F →
      (∃ c, F = deduplicate (sortByScoreDesc c)) ∧
      F.Pairwise (fun x y => y.score ≤ x.score) ∧
      F.Pairwise (fun x y => x.url ≠ y.url) ∧
      ∀ n p, (cache_search env neural a).result = .ok (n, p) →
        n = F.length ∧
        p = (F.drop (cachePageSize * a.index)).take cachePageSize) := by
  refine ⟨deduplicate_idem L, fun x hx => deduplicate_max hx,
    fun x hx => deduplicate_covers hx, deduplicate_urls_nodup L, ?_⟩
  intro env neural a F hF
  obtain ⟨⟨c, hc⟩, hres⟩ := cache_search_fused env neural a F hF
  subst hc
  exact ⟨⟨c, rfl⟩, (fused_sorted_and_nodup c).1, (fused_sorted_and_nodup c).2, hres⟩

/-- Witness for C4 at a concrete duplicated-URL list. -/
theorem C4_dedup_idempotent_fused_witness :
    deduplicate (deduplicate [(⟨"a", 1⟩ : Hit), ⟨"a", 2⟩]) =
      deduplicate [(⟨"a", 1⟩ : Hit), ⟨"a", 2⟩] ∧
    (∃ y ∈ deduplicate [(⟨"a", 1⟩ : Hit), ⟨"a", 2⟩], y.url = "a") := by
  have h := C4_dedup_idempotent_fused [(⟨"a", 1⟩ : Hit), ⟨"a", 2⟩]
  refine ⟨h.1, ?_⟩
  have h3 := h.2.2.1 ⟨"a", 2⟩ (by decide)
  simpa using h3

/-- C3: when curated-content retrieval runs inside `cache_search` (triggered
by a page-open search with no explicit query) and the community-core record
of a scoped community holds the standardized target URL, every hit returned
by the re-query on the entry's hashtags is unioned into the candidate set
with exactly 100 added to its backend score: a re-queried hit of pre-boost
score `s` appears among the candidates with post-boost score `s + 100`, and
the candidate set is the submissions hits followed by the boosted hits. -/
theorem C3_core_boost (env : SearchEnv) (u : String) (communities : List String)
    (submissions_hits out : List Hit)
    (haug : core_augment env (some u) communities submissions_hits = .ok out) :
    (∃ adds, out = submissions_hits ++ adds) ∧
    ∀ (c : String) (core_content : List (String × List String))
      (tag_keys : List String) (core_hits : List Hit),
      c ∈ communities →
      env.community_cores c = some core_content →
      (core_content.find? (fun e => e.1 = env.standardize_url u)).map
        (fun e => e.2) = some tag_keys →
      env.elastic_search (joinSpace (firstDedup tag_keys)) [c] 0 1000 =
        .ok core_hits →
      ∀ x ∈ core_hits, (⟨x.url, x.score + 100⟩ : Hit) ∈ out := by
  unfold core_augment at haug
  refine ⟨core_retrieve_loop_append env _ communities _ out haug, ?_⟩
  intro c cc tk chits hc hcc hfind hs
  exact core_retrieve_loop_boost env _ communities _ out c cc tk chits
    haug hc hcc hfind hs

/-- Concrete environment for the C3 witness: one community whose core record
holds the target URL with one hashtag; the submissions gateway returns a
single hit of score 5 on the hashtag re-query. -/
def env_c3 : SearchEnv where
  elastic_search := fun _ _ _ _ => .ok [⟨"x", 5⟩]
  webpages_elastic_search := fun _ _ _ _ => .ok []
  get_submissions := fun _ _ => .ok (0, [])
  get_community := fun _ _ => .ok (0, [])
  community_cores := fun c => if c = "c1" then some [("u1", ["#t1"])] else none
  neural_rerank := fun _ _ => .non200
  cache_ctor := some []
  standardize_url := fun u => u

/-- Witness for C3: the single re-queried hit of score 5 enters the candidate
set with score 105, appended after the submissions hits. -/
theorem C3_core_boost_witness :
    (∃ adds, [(⟨"s", 1⟩ : Hit), ⟨"x", 105⟩] = [(⟨"s", 1⟩ : Hit)] ++ adds) ∧
    ((⟨"x", 105⟩ : Hit) ∈ [(⟨"s", 1⟩ : Hit), ⟨"x", 105⟩]) := by
  have h := C3_core_boost env_c3 "u1" ["c1"] [⟨"s", 1⟩] [⟨"s", 1⟩, ⟨"x", 105⟩] rfl
  refine ⟨h.1, ?_⟩
  have hb := h.2 "c1" [("u1", ["#t1"])] ["#t1"] [⟨"x", 5⟩]
    (by decide) rfl rfl rfl ⟨"x", 5⟩ (by decide)
  exact hb

theorem patch_edit_hashtags_no_core (f : Bool) (l : List String) :
    "#core" ∉ (patch_edit_hashtags_flag f l).1 := by
  unfold patch_edit_hashtags_flag
  simp only []
  by_cases h1 : f = true ∧ "#core" ∉ l
  · rw [if_pos h1]
    simp only []
    rw [if_neg (List.not_mem_nil "#core")]
    exact List.not_mem_nil "#core"
  · rw [if_neg h1]
    simp only []
    by_cases h2 : "#core" ∈ l
    · rw [if_pos h2]
      exact core_marker_not_mem_filter l
    · rw [if_neg h2]
      exact h2

/-- C5: every `CommunityCores.update` call issued by the submission lifecycle
handlers — create (`create_submission_helper`), full deletion, removal from a
community, addition to a community, and content/URL edit — carries a hashtag
list from which the marker tag "#core" has been removed: for every handler
and all inputs, no issued update's hashtag list contains "#core". -/
theorem C5_updates_never_carry_core (σ : String → String)
    (hashtags explanation_tags highlighted_tags indexed_hashtags : List String)
    (record_communities all_communities : List String)
    (community community_id source_url old_source_url new_source_url doc_id : String)
    (old_core_flag : Bool) :
    (∀ upd ∈ create_submission_core_updates σ hashtags community source_url doc_id,
      "#core" ∉ upd.hashtags) ∧
    (∀ upd ∈ delete_submission_core_updates σ explanation_tags highlighted_tags
        record_communities source_url doc_id, "#core" ∉ upd.hashtags) ∧
    (∀ upd ∈ remove_community_core_updates σ explanation_tags highlighted_tags
        community_id source_url doc_id, "#core" ∉ upd.hashtags) ∧
    (∀ upd ∈ patch_add_community_core_updates σ highlighted_tags explanation_tags
        community_id source_url doc_id, "#core" ∉ upd.hashtags) ∧
    (∀ upd ∈ patch_edit_core_updates σ old_core_flag indexed_hashtags
        all_communities old_source_url new_source_url doc_id,
      "#core" ∉ upd.hashtags) := by
  refine ⟨?_, ?_, ?_, ?_, ?_⟩
  · intro upd hupd
    unfold create_submission_core_updates at hupd
    revert hupd
    split
    · intro hupd
      obtain rfl := List.mem_singleton.mp hupd
      exact core_marker_not_mem_filter hashtags
    · intro hupd
      exact absurd hupd (List.not_mem_nil upd)
  · intro upd hupd
    unfold delete_submission_core_updates at hupd
    revert hupd
    split
    · intro hupd
      obtain ⟨c, hcmem, rfl⟩ := List.mem_map.mp hupd
      exact List.not_mem_nil "#core"
    · intro hupd
      exact absurd hupd (List.not_mem_nil upd)
  · intro upd hupd
    unfold remove_community_core_updates at hupd
    revert hupd
    split
    · intro hupd
      obtain rfl := List.mem_singleton.mp hupd
      exact List.not_mem_nil "#core"
    · intro hupd
      exact absurd hupd (List.not_mem_nil upd)
  · intro upd hupd
    unfold patch_add_community_core_updates at hupd
    simp only [] at hupd
    by_cases hin : "#core" ∈ firstDedup (highlighted_tags ++ explanation_tags)
    · rw [if_pos hin] at hupd
      obtain rfl := List.mem_singleton.mp hupd
      exact core_marker_not_mem_filter _
    · rw [if_neg hin] at hupd
      exact absurd hupd (List.not_mem_nil upd)
  · intro upd hupd
    unfold patch_edit_core_updates at hupd
    simp only [] at hupd
    revert hupd
    split
    · intro hupd
      obtain ⟨c, hcmem, hmem⟩ := List.mem_flatMap.mp hupd
      rcases List.mem_append.mp hmem with hret | hmain
      · revert hret
        split
        · intro hret
          obtain rfl := List.mem_singleton.mp hret
          exact List.not_mem_nil "#core"
        · intro hret
          exact absurd hret (List.not_mem_nil upd)
      · obtain rfl := List.mem_singleton.mp hmain
        exact patch_edit_hashtags_no_core old_core_flag indexed_hashtags
    · intro hupd
      exact absurd hupd (List.not_mem_nil upd)

/-- Witness for C5: a creation whose indexed hashtags are `#core` and `#a`
issues exactly one update, carrying `["#a"]`, in which "#core" is absent. -/
theorem C5_updates_never_carry_core_witness :
    create_submission_core_updates (fun u => u) ["#core", "#a"] "c1" "u1" "d1" =
      [⟨"c1", "u1", ["#a"], "d1"⟩] ∧
    "#core" ∉ (⟨"c1", "u1", ["#a"], "d1"⟩ : CoreUpdate).hashtags := by
  refine ⟨by decide, ?_⟩
  have h := (C5_updates_never_carry_core (fun u => u) ["#core", "#a"] [] [] [] [] []
    "c1" "c1" "u1" "u1" "u1" "d1" false).1
  exact h ⟨"c1", "u1", ["#a"], "d1"⟩ (by decide)

/-- C8: for a search with an empty query arriving as a page-open
(`extension_open`) event, the derived query of `search` is: the source URL
when there is no highlighted text; the highlighted text with every '#'
character replaced (by a space) when it has fewer than 10
whitespace-separated words; and otherwise the joined set of key phrases
extracted from the hash-stripped highlighted text. -/
theorem C8_query_derivation (noun_phrases : String → List String)
    (query source highlighted_text url : String)
    (hq : query = "") (hs : source = "extension_open") :
    (highlighted_text = "" →
      derive_query noun_phrases query source highlighted_text url = url) ∧
    (highlighted_text ≠ "" → (pyWords highlighted_text).length < 10 →
      derive_query noun_phrases query source highlighted_text url =
        subHash highlighted_text) ∧
    (highlighted_text ≠ "" → ¬ (pyWords highlighted_text).length < 10 →
      derive_query noun_phrases query source highlighted_text url =
        joinSpace (firstDedup (noun_phrases (subHash highlighted_text)))) := by
  subst hq hs
  unfold derive_query
  rw [if_pos (Or.inl ⟨rfl, rfl⟩)]
  simp only []
  refine ⟨fun h => by rw [if_pos h], fun h1 h2 => ?_, fun h1 h2 => ?_⟩
  · rw [if_neg h1, if_pos h2]
  · rw [if_neg h1, if_neg h2]

/-- Witness for C8: no highlighted text falls back to the URL; a short
highlighted text is used with its '#' replaced by a space. -/
theorem C8_query_derivation_witness :
    derive_query (fun _ => ["k"]) "" "extension_open" "" "http://u" = "http://u" ∧
    derive_query (fun _ => ["k"]) "" "extension_open" "a#b" "u" = "a b" := by
  have h1 := C8_query_derivation (fun _ => ["k"]) "" "extension_open" "" "http://u" rfl rfl
  have h2 := C8_query_derivation (fun _ => ["k"]) "" "extension_open" "a#b" "u" rfl rfl
  refine ⟨h1.1 rfl, ?_⟩
  have := h2.2.1 (by decide) (by decide)
  rw [this]
  decide

/-- C9: in recommendation explore mode, when the derived term list has at
most 10 terms they are all used; when it has more than 10 terms, exactly 10
are kept and every kept term is drawn from the derived list (the
`random.shuffle` sampling is modelled by an arbitrary permutation); and when
no source text is available at all, the fixed default term set becomes the
query. -/
theorem C9_explore_sampling (noun_phrases : String → List String)
    (shuffle : List String → List String)
    (hperm : ∀ l, (shuffle l).Perm l) (full_text : String) :
    ((pyWords (explore_search_text noun_phrases full_text)).length ≤ 10 →
      explore_sample_terms shuffle (explore_search_text noun_phrases full_text) =
        pyWords (explore_search_text noun_phrases full_text)) ∧
    (10 < (pyWords (explore_search_text noun_phrases full_text)).length →
      (explore_sample_terms shuffle
        (explore_search_text noun_phrases full_text)).length = 10 ∧
      ∀ t ∈ explore_sample_terms shuffle (explore_search_text noun_phrases full_text),
        t ∈ pyWords (explore_search_text noun_phrases full_text)) ∧
    (full_text = "" →
      explore_search_text noun_phrases full_text = default_search_text) := by
  refine ⟨?_, ?_, ?_⟩
  · intro hle
    unfold explore_sample_terms
    simp only []
    rw [if_neg (not_lt_of_le hle)]
  · intro hgt
    unfold explore_sample_terms
    simp only []
    rw [if_pos hgt]
    constructor
    · rw [List.length_take]
      have hlen : (shuffle (pyWords (explore_search_text noun_phrases full_text))).length =
          (pyWords (explore_search_text noun_phrases full_text)).length :=
        (hperm _).length_eq
      omega
    · intro t ht
      have h1 : t ∈ shuffle (pyWords (explore_search_text noun_phrases full_text)) :=
        List.take_subset _ _ ht
      exact (hperm _).mem_iff.mp h1
  · intro h
    subst h
    rfl

/-- Witness for C9: with no source text the default term set is used; it has
more than 10 terms, so exactly 10 are sampled. -/
theorem C9_explore_sampling_witness :
    (explore_sample_terms (fun l => l) (explore_search_text (fun _ => []) "")).length = 10 ∧
    explore_search_text (fun _ => []) "" = default_search_text := by
  have h := C9_explore_sampling (fun _ => []) (fun l => l) (fun l => List.Perm.refl l) ""
  refine ⟨?_, h.2.2 rfl⟩
  have hgt : 10 < (pyWords (explore_search_text (fun _ => []) "")).length := by decide
  exact (h.2.1 hgt).1

/-- Environment for C1: the submissions gateway returns two hits in backend
order `[b(3), a(5)]`; the reranker answers HTTP 200 with a well-formed
payload keeping that order `[b, a]` (different from the score-sorted order
`[a, b]`); the cache is healthy. -/
def env_c1 : SearchEnv where
  elastic_search := fun _ _ _ _ => .ok [⟨"b", 3⟩, ⟨"a", 5⟩]
  webpages_elastic_search := fun _ _ _ _ => .ok []
  get_submissions := fun _ _ => .ok (0, [])
  get_community := fun _ _ => .ok (0, [])
  community_cores := fun _ => none
  neural_rerank := fun _ _ => .ok [⟨"b", 3⟩, ⟨"a", 5⟩]
  cache_ctor := some []
  standardize_url := fun u => u

/-- Arguments for C1: a fresh non-empty-query search, webpage toggle off. -/
def args_c1 : CSArgs where
  query := "q"
  search_id := "s1"
  index := 0
  communities := ["c1"]
  user_id := "u1"
  own_submissions := false
  toggle_webpage_results := false
  url_core_retrieve := none

/-- C1: with the reranker enabled and the rerank call succeeding (HTTP 200,
well-formed payload, order `[b, a]`), `cache_search` still returns the
score-sorted order `[a, b]`: the reranked pages bound from the response are
overwritten by the unconditional sort, so the reranker's order is never the
one returned. -/
theorem C1_rerank_success_order_discarded :
    (cache_search env_c1 true args_c1).rerank_outcome =
      some (RerankResp.ok [⟨"b", 3⟩, ⟨"a", 5⟩]) ∧
    (cache_search env_c1 true args_c1).result =
      .ok (2, [⟨"a", 5⟩, ⟨"b", 3⟩]) ∧
    [(⟨"a", 5⟩ : Hit), ⟨"b", 3⟩] ≠ [⟨"b", 3⟩, ⟨"a", 5⟩] := by
  exact ⟨rfl, rfl, by decide⟩

/-- Environment for C2: the submissions gateway raises on every query while
the webpages gateway is healthy and would return one hit; the cache is
healthy but empty. -/
def env_c2 : SearchEnv where
  elastic_search := fun _ _ _ _ => .error ()
  webpages_elastic_search := fun _ _ _ _ => .ok [⟨"w", 1⟩]
  get_submissions := fun _ _ => .ok (0, [])
  get_community := fun _ _ => .ok (0, [])
  community_cores := fun _ => none
  neural_rerank := fun _ _ => .non200
  cache_ctor := some []
  standardize_url := fun u => u

/-- User context for C2: two communities, both resolvable. -/
def uenv_c2 : UserEnv where
  user_communities := ["c1", "c2"]
  valid_object_id := fun _ => true
  community_names := fun _ => some "name"
  noun_phrases := fun _ => []

/-- Request for C2: a fresh all-communities search with a plain query. -/
def req_c2 : SearchReq where
  query := "q"
  source := "webpage_search"
  highlighted_text := ""
  url := ""
  community := "all"
  own_submissions := false
  page := 0

/-- C2 counterexample: the submissions gateway fails while the webpages
source is healthy (it would return a hit), yet the search surfaces the
catch-all user-facing error — the webpages source is never even consulted
and no fusion with the remaining source happens, refuting "a failed gateway
contributes zero hits and an error is returned only when all sources
fail". -/
theorem C2_counterexample :
    env_c2.webpages_elastic_search "q" [] 0 1000 = .ok [⟨"w", 1⟩] ∧
    (search_endpoint env_c2 uenv_c2 false "u1" "s1" req_c2).resp =
      .error "Failed to search, please try again later." ∧
    (search_endpoint env_c2 uenv_c2 false "u1" "s1" req_c2).webpages_queried = false := by
  exact ⟨rfl, rfl, rfl⟩

/-- Environment for the C2 witness's webpages-gateway case: the submissions
gateway is healthy while the webpages gateway raises on every query. -/
def env_c2w : SearchEnv where
  elastic_search := fun _ _ _ _ => .ok [⟨"a", 5⟩]
  webpages_elastic_search := fun _ _ _ _ => .error ()
  get_submissions := fun _ _ => .ok (0, [])
  get_community := fun _ _ => .ok (0, [])
  community_cores := fun _ => none
  neural_rerank := fun _ _ => .non200
  cache_ctor := some []
  standardize_url := fun u => u

/-- C2 amended: a failing backend-gateway query is not converted into zero
hits. On the fusion path (fresh non-empty-query search, cache miss),
`cache_search` propagates the exception when the submissions gateway fails,
and likewise when only the webpages gateway fails (the submissions gateway
having succeeded, with the toggle on); the `search` route handler turns any
propagated exception into the user-facing "Failed to search" error, even
when the other source is healthy. -/
theorem C2_gateway_failure_surfaces :
    (∀ (env : SearchEnv) (b : Bool) (a : CSArgs),
      a.own_submissions = false → a.query ≠ "" →
      (match env.cache_ctor with
        | some store => cacheLookup store a.user_id a.search_id a.index
        | none => (0, [])).2 = [] →
      env.elastic_search a.query a.communities 0 1000 = .error () →
      (cache_search env b a).result = .error ()) ∧
    (∀ (env : SearchEnv) (b : Bool) (a : CSArgs) (subs subs2 : List Hit),
      a.own_submissions = false → a.query ≠ "" →
      (match env.cache_ctor with
        | some store => cacheLookup store a.user_id a.search_id a.index
        | none => (0, [])).2 = [] →
      env.elastic_search a.query a.communities 0 1000 = .ok subs →
      core_augment env a.url_core_retrieve a.communities subs = .ok subs2 →
      a.toggle_webpage_results = true →
      env.webpages_elastic_search a.query [] 0 1000 = .error () →
      (cache_search env b a).result = .error ()) ∧
    (∀ (env : SearchEnv) (uenv : UserEnv) (neural : Bool)
      (user_id search_id : String) (req : SearchReq) (prep : PreparedSearch),
      search_prepare uenv req = .ok prep →
      (cache_search env neural (search_args prep req user_id search_id)).result =
        .error () →
      (search_endpoint env uenv neural user_id search_id req).resp =
        .error "Failed to search, please try again later.") := by
  refine ⟨?_, ?_, ?_⟩
  · intro env b a h1 h2 h3 h4
    exact cache_search_gateway_error env b a h1 h2 h3 h4
  · intro env b a subs subs2 h1 h2 h3 h4 h5 h6 h7
    exact cache_search_webpages_gateway_error env b a subs subs2 h1 h2 h3 h4 h5 h6 h7
  · intro env uenv neural user_id search_id req prep hok herr
    unfold search_endpoint
    rw [hok]
    simp only []
    rw [herr]

/-- Witness for C2 amended, at the concrete C2 environments: the
submissions-gateway failure, the webpages-gateway-only failure, and the
surfaced error responses for both. -/
theorem C2_gateway_failure_surfaces_witness :
    (cache_search env_c2 false
      (search_args ⟨"q", ["c1", "c2"], true, none⟩ req_c2 "u1" "s1")).result =
        .error () ∧
    (cache_search env_c2w false
      (search_args ⟨"q", ["c1", "c2"], true, none⟩ req_c2 "u1" "s1")).result =
        .error () ∧
    (search_endpoint env_c2 uenv_c2 false "u1" "s1" req_c2).resp =
      .error "Failed to search, please try again later." ∧
    (search_endpoint env_c2w uenv_c2 false "u1" "s1" req_c2).resp =
      .error "Failed to search, please try again later." := by
  have h1 := C2_gateway_failure_surfaces.1 env_c2 false
    (search_args ⟨"q", ["c1", "c2"], true, none⟩ req_c2 "u1" "s1")
    rfl (by decide) rfl rfl
  have h2 := C2_gateway_failure_surfaces.2.1 env_c2w false
    (search_args ⟨"q", ["c1", "c2"], true, none⟩ req_c2 "u1" "s1")
    [⟨"a", 5⟩] [⟨"a", 5⟩] rfl (by decide) rfl rfl rfl rfl rfl
  refine ⟨h1, h2, ?_, ?_⟩
  · exact C2_gateway_failure_surfaces.2.2 env_c2 uenv_c2 false "u1" "s1" req_c2
      ⟨"q", ["c1", "c2"], true, none⟩ rfl h1
  · exact C2_gateway_failure_surfaces.2.2 env_c2w uenv_c2 false "u1" "s1" req_c2
      ⟨"q", ["c1", "c2"], true, none⟩ rfl h2

/-- Environment for C7: the session cache cannot be constructed (`Cache()`
raises, so `cache` is `None`); the gateways are healthy. -/
def env_c7 : SearchEnv where
  elastic_search := fun _ _ _ _ => .ok [⟨"a", 5⟩]
  webpages_elastic_search := fun _ _ _ _ => .ok []
  get_submissions := fun _ _ => .ok (0, [])
  get_community := fun _ _ => .ok (0, [])
  community_cores := fun _ => none
  neural_rerank := fun _ _ => .non200
  cache_ctor := none
  standardize_url := fun u => u

/-- User context for C7. -/
def uenv_c7 : UserEnv where
  user_communities := ["c1", "c2"]
  valid_object_id := fun _ => true
  community_names := fun _ => some "name"
  noun_phrases := fun _ => []

/-- Request for C7: a fresh non-empty-query search. -/
def req_c7 : SearchReq where
  query := "q"
  source := "webpage_search"
  highlighted_text := ""
  url := ""
  community := "all"
  own_submissions := false
  page := 0

/-- C7: when `Cache()` fails to construct, `cache_search` still computes the
full fused list (here `[a(5)]`), but then calls `cache.insert` on `None`,
which raises, and the `search` route handler returns the catch-all error —
the computed page is discarded instead of being returned to the caller. -/
theorem C7_cache_failure_discards_page :
    (cache_search env_c7 false (search_args ⟨"q", ["c1", "c2"], true, none⟩ req_c7
        "u1" "s1")).fused_full = some [⟨"a", 5⟩] ∧
    (cache_search env_c7 false (search_args ⟨"q", ["c1", "c2"], true, none⟩ req_c7
        "u1" "s1")).result = .error () ∧
    (search_endpoint env_c7 uenv_c7 false "u1" "s1" req_c7).resp =
      .error "Failed to search, please try again later." := by
  exact ⟨rfl, rfl, rfl⟩

/-- Environment for the C6 counterexample: the rerank endpoint answers with a
non-2xx status on every call; everything else is healthy. -/
def env_c6 : SearchEnv where
  elastic_search := fun _ _ _ _ => .ok [⟨"a", 5⟩]
  webpages_elastic_search := fun _ _ _ _ => .ok []
  get_submissions := fun _ _ => .ok (0, [])
  get_community := fun _ _ => .ok (0, [])
  community_cores := fun _ => none
  neural_rerank := fun _ _ => .non200
  cache_ctor := some []
  standardize_url := fun u => u

/-- Environment for the C6 witness: the rerank call raises (timeout or
malformed payload) on every call. -/
def env_c6x : SearchEnv where
  elastic_search := fun _ _ _ _ => .ok [⟨"a", 5⟩]
  webpages_elastic_search := fun _ _ _ _ => .ok []
  get_submissions := fun _ _ => .ok (0, [])
  get_community := fun _ _ => .ok (0, [])
  community_cores := fun _ => none
  neural_rerank := fun _ _ => .exn
  cache_ctor := some []
  standardize_url := fun u => u

/-- Arguments for C6: a fresh non-empty-query search reaching the fusion
path on each request. -/
def args_c6 : CSArgs where
  query := "q"
  search_id := "s6"
  index := 0
  communities := ["c1"]
  user_id := "u1"
  own_submissions := false
  toggle_webpage_results := false
  url_core_retrieve := none

/-- C6 counterexample: the first rerank call fails with a non-2xx response,
yet the next search request in the same process attempts the rerank network
call again — a non-2xx failure does not set the process-wide disable flag
(only a raised exception deletes `neural_api` from the environment). -/
theorem C6_counterexample :
    (process_run true [⟨env_c6, args_c6⟩, ⟨env_c6, args_c6⟩]).map
        (fun o => o.rerank_outcome) =
      [some RerankResp.non200, some RerankResp.non200] := rfl

/-- C6 amended: after the first rerank call that raises (timeout or
malformed payload), no later request of the same process attempts a rerank
call; moreover the rerank response never influences the returned result,
the materialized fused list, or the webpages-queried flag (the fusion always
uses the score-sorted deduplicated order and a rerank failure is never
surfaced), while a non-2xx response leaves the flag set (see the recorded
counterexample). -/
theorem C6_exn_disables_for_process (b : Bool) (rs : List ProcessReq)
    (i j : Nat) (oi oj : CSOut) (hij : i < j)
    (hoi : (process_run b rs)[i]? = some oi)
    (hexn : oi.rerank_outcome = some RerankResp.exn)
    (hoj : (process_run b rs)[j]? = some oj) :
    oj.rerank_outcome = none ∧
    (∀ (env : SearchEnv) (rr : List Hit → String → RerankResp) (neural : Bool)
      (a : CSArgs) (wq : Bool) (sp : List Hit),
      (finish_fusion { env with neural_rerank := rr } neural a wq sp).result =
        (finish_fusion env neural a wq sp).result ∧
      (finish_fusion { env with neural_rerank := rr } neural a wq sp).fused_full =
        (finish_fusion env neural a wq sp).fused_full ∧
      (finish_fusion { env with neural_rerank := rr } neural a wq sp).webpages_queried =
        (finish_fusion env neural a wq sp).webpages_queried) ∧
    (∀ (env : SearchEnv) (neural : Bool) (a : CSArgs) (F : List Hit),
      (cache_search env neural a).fused_full = some F →
      ∃ c, F = deduplicate (sortByScoreDesc c)) := by
  refine ⟨process_run_after_exn b rs i j oi oj hij hoi hexn hoj, ?_, ?_⟩
  · intro env rr neural a wq sp
    exact ⟨rfl, rfl, rfl⟩
  · intro env neural a F hF
    exact (cache_search_fused env neural a F hF).1

/-- Witness for C6 amended: in a two-request process whose first rerank call
raises, the second request does not attempt a rerank call. -/
theorem C6_exn_disables_for_process_witness :
    ∃ oj, (process_run true [⟨env_c6x, args_c6⟩, ⟨env_c6x, args_c6⟩])[1]? = some oj ∧
      oj.rerank_outcome = none := by
  refine ⟨_, rfl, ?_⟩
  exact (C6_exn_disables_for_process true [⟨env_c6x, args_c6⟩, ⟨env_c6x, args_c6⟩]
    0 1 _ _ (by decide) rfl rfl rfl).1

/-- Environment for C10: healthy gateways; the webpages index returns one
hit; no curated core content. -/
def env_c10 : SearchEnv where
  elastic_search := fun _ _ _ _ => .ok []
  webpages_elastic_search := fun _ _ _ _ => .ok [⟨"w", 1⟩]
  get_submissions := fun _ _ => .ok (0, [])
  get_community := fun _ _ => .ok (0, [])
  community_cores := fun _ => none
  neural_rerank := fun _ _ => .non200
  cache_ctor := some []
  standardize_url := fun u => u

/-- User context for C10: two communities, both resolvable. -/
def uenv_c10 : UserEnv where
  user_communities := ["c1", "c2"]
  valid_object_id := fun _ => true
  community_names := fun _ => some "name"
  noun_phrases := fun _ => []

/-- Request for C10: a page-open (`extension_open`) search with empty query
and no highlighted text, whose page URL contains '#'. -/
def req_c10 : SearchReq where
  query := ""
  source := "extension_open"
  highlighted_text := ""
  url := "http://e.com/p#s"
  community := "all"
  own_submissions := false
  page := 0

/-- C10 counterexample: on a page-open search with empty typed query, the
derived query falls back to the page URL, which contains '#'; the search's
query string therefore contains '#', yet the webpages index is queried and
its hit is returned — the hashtag check only inspects the typed query
before derivation. -/
theorem C10_counterexample :
    pyContains (search_endpoint env_c10 uenv_c10 false "u1" "s1" req_c10).final_query
        '#' = true ∧
    (search_endpoint env_c10 uenv_c10 false "u1" "s1" req_c10).webpages_queried = true ∧
    (search_endpoint env_c10 uenv_c10 false "u1" "s1" req_c10).resp =
      .ok (1, [⟨"w", 1⟩]) := by
  exact ⟨rfl, rfl, rfl⟩

/-- C10 amended: for every fresh search whose typed query (after the
1000-character truncation and before any page-open derivation) contains the
character '#', the webpages index is never queried: the webpage toggle is
cleared up front and stays off on every path of `cache_search`. -/
theorem C10_hash_disables_webpages (env : SearchEnv) (uenv : UserEnv)
    (neural : Bool) (user_id search_id : String) (req : SearchReq)
    (hq : pyContains (pyTake req.query 1000) '#' = true) :
    (search_endpoint env uenv neural user_id search_id req).webpages_queried = false :=
  search_endpoint_hash_no_webpages env uenv neural user_id search_id req hq

/-- Witness for C10 amended: a typed hashtag query never reaches the
webpages index. -/
theorem C10_hash_disables_webpages_witness :
    (search_endpoint env_c10 uenv_c10 false "u1" "s1"
      ⟨"#tag", "webpage_search", "", "", "all", false, 0⟩).webpages_queried = false := by
  exact C10_hash_disables_webpages env_c10 uenv_c10 false "u1" "s1"
    ⟨"#tag", "webpage_search", "", "", "all", false, 0⟩ rfl
